import Mathlib

/-!
Shallow embedding of the ender-view transition-group library
(`src/index.ts`): option merging, CSS generation, element-set and
stylesheet lifecycle, and the `animate` capability fallback.

DOM elements are identified by natural numbers; an element's managed
inline style is the pair of its `viewTransitionName` and
`viewTransitionClass` declarations.  The document's adopted-stylesheet
list is a list of sheet identifiers (one identifier per
`CSSStyleSheet` object); `push` appends, the manager's `remove` filters
out every instance.  JavaScript truthiness of a number is `≠ 0` and of
a string is `≠ ""`; an absent optional field is `Option.none`.
-/

namespace EnderView

/-- The animation sub-record `EnderViewAnimationProperties`:
easing, duration, delay and an optional animation name. -/
structure AnimProps where
  easing : String
  duration : Int
  delay : Int
  animationName : Option String
deriving DecidableEq

/-- A partial `EnderViewOptions` record: every field may be absent. -/
structure Options where
  easing : Option String := none
  duration : Option Int := none
  delay : Option Int := none
  viewTransitionName : Option String := none
  enterProps : Option AnimProps := none
  leaveProps : Option AnimProps := none
  enterCss : Option String := none
  leaveCss : Option String := none
deriving DecidableEq

/-- The two element-level style declarations managed by the library
(`EnderViewManagedCssDeclarations`). -/
structure ElStyle where
  viewTransitionName : String
  viewTransitionClass : String
deriving DecidableEq

/-- Pointwise update of the per-element style map. -/
def setStyle (styles : Nat → ElStyle) (el : Nat) (s : ElStyle) : Nat → ElStyle :=
  fun e => if e = el then s else styles e

/-- The mutable world a transition group acts on: its element set
(insertion-ordered, as a JS `Set`), the per-element inline styles, the
document's adopted-stylesheet list, and the group sheet's CSS text. -/
structure EnderState where
  els : List Nat
  styles : Nat → ElStyle
  adopted : List Nat
  sheetCss : String

/-- The per-group constants captured by the `createEnderView` closure:
the generated unique identifier, the identity of the group's
`CSSStyleSheet` object, and the original caller-supplied options. -/
structure Group where
  viewTransitionId : String
  sheetId : Nat
  options : Options
deriving DecidableEq

/-- `getOptions`: merge the supplied partial options over the defaults
`easing = "ease-in-out"`, `delay = 0`, `duration = 200`. -/
def getOptions (options : Options) : Options :=
  { options with
      easing := some (options.easing.getD "ease-in-out")
      delay := some (options.delay.getD 0)
      duration := some (options.duration.getD 200) }

/-- One field of the JS object spread `\x7b...options, ...newOptions\x7d`:
the overriding record's field wins whenever it is present. -/
def mergeField {α : Type} (base over : Option α) : Option α :=
  match over with
  | some v => some v
  | none => base

/-- The shallow object spread `\x7b...options, ...newOptions\x7d` on two
partial option records. -/
def mergeOptions (base newOptions : Options) : Options where
  easing := mergeField base.easing newOptions.easing
  duration := mergeField base.duration newOptions.duration
  delay := mergeField base.delay newOptions.delay
  viewTransitionName := mergeField base.viewTransitionName newOptions.viewTransitionName
  enterProps := mergeField base.enterProps newOptions.enterProps
  leaveProps := mergeField base.leaveProps newOptions.leaveProps
  enterCss := mergeField base.enterCss newOptions.enterCss
  leaveCss := mergeField base.leaveCss newOptions.leaveCss

/-- `applyViewTransitionStyles`: assign both managed declarations on the
element, defaulting an absent `viewTransitionName` to `"match-element"`
(the `?? 'match-element'` nullish coalescing). -/
def applyViewTransitionStyles (st : EnderState) (el : Nat)
    (viewTransitionName : Option String) (viewTransitionClass : String) : EnderState :=
  { st with
      styles := setStyle st.styles el
        ⟨viewTransitionName.getD "match-element", viewTransitionClass⟩ }

/-- `addInlineStyleToEl`: tag an element with the merged options' view
transition name and the group's identifier as transition class. -/
def addInlineStyleToEl (g : Group) (st : EnderState) (el : Nat) : EnderState :=
  applyViewTransitionStyles st el (getOptions g.options).viewTransitionName g.viewTransitionId

/-- `removeInlineStyleFromEl`: reset both managed declarations to the
empty string. -/
def removeInlineStyleFromEl (st : EnderState) (el : Nat) : EnderState :=
  applyViewTransitionStyles st el (some "") ""

/-- The style manager's `add`: replace the sheet's content when the CSS
string is truthy, then push the sheet onto the document's adopted list
(unconditionally, duplicates included). -/
def styleManagerAdd (sheetId : Nat) (css : String) (st : EnderState) : EnderState :=
  { st with
      sheetCss := if css = "" then st.sheetCss else css
      adopted := st.adopted ++ [sheetId] }

/-- The style manager's `remove`: filter every instance of the sheet out
of the document's adopted list. -/
def styleManagerRemove (sheetId : Nat) (st : EnderState) : EnderState :=
  { st with adopted := st.adopted.filter (fun s => s ≠ sheetId) }

/-- `createUniqueViewTrasitionId` applied to counter value `id`: the
generated identifier after the counter is incremented. -/
def createUniqueViewTrasitionId (id : Nat) : String :=
  "ender-view-transition-id-" ++ toString (id + 1)

/-- JS template interpolation of a possibly absent number
(`undefined` renders as the string `"undefined"`). -/
def renderNum (n : Option Int) : String :=
  match n with
  | none => "undefined"
  | some v => toString v

/-- JS template interpolation of a possibly absent string. -/
def renderStr (s : Option String) : String :=
  match s with
  | none => "undefined"
  | some v => v

/-- `props?.animationName ?? fallback`. -/
def animNameFor (props : Option AnimProps) (fallback : String) : String :=
  (props.bind fun p => p.animationName).getD fallback

/-- `props?.delay ? "animation-delay: <delay>ms;" : ""`. -/
def animDelayDecl (props : Option AnimProps) : String :=
  match props with
  | none => ""
  | some p => if p.delay = 0 then "" else "animation-delay: " ++ toString p.delay ++ "ms;"

/-- `props?.duration ? "animation-duration: <duration>ms;" : ""`. -/
def animDurationDecl (props : Option AnimProps) : String :=
  match props with
  | none => ""
  | some p => if p.duration = 0 then "" else "animation-duration: " ++ toString p.duration ++ "ms;"

/-- `props?.easing ? "animation-timing-function: <easing>;" : ""`. -/
def animEasingDecl (props : Option AnimProps) : String :=
  match props with
  | none => ""
  | some p => if p.easing = "" then "" else "animation-timing-function: " ++ p.easing ++ ";"

/-- The `::view-transition-new(.<id>):only-child` rule block. -/
def newChildRule (viewTransitionId : String) (o : Options) : String :=
  "::view-transition-new(." ++ viewTransitionId ++ "):only-child \x7b \n    animation-name: "
    ++ animNameFor o.enterProps (viewTransitionId ++ "-enter") ++ ";\n    "
    ++ animDelayDecl o.enterProps ++ "\n    "
    ++ animDurationDecl o.enterProps ++ "\n    "
    ++ animEasingDecl o.enterProps ++ "\n  \x7d"

/-- The `::view-transition-old(.<id>):only-child` rule block. -/
def oldChildRule (viewTransitionId : String) (o : Options) : String :=
  "::view-transition-old(." ++ viewTransitionId ++ "):only-child \x7b \n    animation-name: "
    ++ animNameFor o.leaveProps (viewTransitionId ++ "-leave") ++ ";\n    "
    ++ animDelayDecl o.leaveProps ++ "\n    "
    ++ animDurationDecl o.leaveProps ++ "\n    "
    ++ animEasingDecl o.leaveProps ++ "\n  \x7d"

/-- The `::view-transition-group(.<id>)` rule block. -/
def groupRule (viewTransitionId : String) (o : Options) : String :=
  "::view-transition-group(." ++ viewTransitionId ++ ") \x7b\n    animation-delay: "
    ++ renderNum o.delay ++ "ms;\n    animation-duration: "
    ++ renderNum o.duration ++ "ms;\n    animation-timing-function: "
    ++ renderStr o.easing ++ ";\n  \x7d"

/-- The enter keyframes slot: emitted only for a truthy `enterCss`,
and always named `<id>-enter`. -/
def enterKeyframes (viewTransitionId : String) (o : Options) : String :=
  match o.enterCss with
  | none => ""
  | some css =>
      if css = "" then ""
      else "\n  @keyframes " ++ viewTransitionId ++ "-enter \x7b\n    from \x7b " ++ css
        ++ " \x7d\n  \x7d"

/-- The leave keyframes slot: emitted only for a truthy `leaveCss`,
and always named `<id>-leave`. -/
def leaveKeyframes (viewTransitionId : String) (o : Options) : String :=
  match o.leaveCss with
  | none => ""
  | some css =>
      if css = "" then ""
      else "\n  @keyframes " ++ viewTransitionId ++ "-leave \x7b\n    to \x7b " ++ css
        ++ " \x7d\n  \x7d"

/-- Labels for the five interpolation slots of the template literal in
`createTransitionCss`, in emission order. -/
inductive CssBlockKind where
  | newChild : CssBlockKind
  | oldChild : CssBlockKind
  | group : CssBlockKind
  | enterKf : CssBlockKind
  | leaveKf : CssBlockKind
deriving DecidableEq

/-- The five blocks emitted by `createTransitionCss`, each tagged with
its slot. -/
def cssBlocks (viewTransitionId : String) (o : Options) : List (CssBlockKind × String) :=
  [(CssBlockKind.newChild, newChildRule viewTransitionId o),
   (CssBlockKind.oldChild, oldChildRule viewTransitionId o),
   (CssBlockKind.group, groupRule viewTransitionId o),
   (CssBlockKind.enterKf, enterKeyframes viewTransitionId o),
   (CssBlockKind.leaveKf, leaveKeyframes viewTransitionId o)]

/-- `createTransitionCss`: the full template literal, the five blocks
joined by the template's literal glue. -/
def createTransitionCss (viewTransitionId : String) (o : Options) : String :=
  "\n  " ++ newChildRule viewTransitionId o
    ++ "\n\n  " ++ oldChildRule viewTransitionId o
    ++ "\n\n  " ++ groupRule viewTransitionId o
    ++ "\n\n  " ++ enterKeyframes viewTransitionId o
    ++ "\n\n  " ++ leaveKeyframes viewTransitionId o
    ++ "\n"

/-- `updateCss`: regenerate the CSS for the group identifier and hand it
to the style manager's `add`. -/
def updateCss (g : Group) (o : Options) (st : EnderState) : EnderState :=
  styleManagerAdd g.sheetId (createTransitionCss g.viewTransitionId o) st

/-- `addElement`: tag the element's inline style, then insert it into
the set (JS `Set.add`: append only when absent). -/
def addElement (g : Group) (el : Nat) (st : EnderState) : EnderState :=
  let st1 := addInlineStyleToEl g st el
  { st1 with els := if el ∈ st1.els then st1.els else st1.els ++ [el] }

/-- `removeElement`: clear the element's inline style unconditionally,
then delete it from the set (JS `Set.delete`: silent on a missing
member). -/
def removeElement (g : Group) (el : Nat) (st : EnderState) : EnderState :=
  let st1 := removeInlineStyleFromEl st el
  { st1 with els := st1.els.filter (fun e => e ≠ el) }

/-- `addElements` on an already resolved element list (the external
selector collaborator's output): `addElement` on each in order. -/
def addElements (g : Group) (resolved : List Nat) (st : EnderState) : EnderState :=
  resolved.foldl (fun s e => addElement g e s) st

/-- `removeElements` on an already resolved element list. -/
def removeElements (g : Group) (resolved : List Nat) (st : EnderState) : EnderState :=
  resolved.foldl (fun s e => removeElement g e s) st

/-- `updateOptions`: merge the new partial over the original
caller-supplied options, apply defaults, regenerate and re-add the
CSS. -/
def updateOptions (g : Group) (newOptions : Options) (st : EnderState) : EnderState :=
  updateCss g (getOptions (mergeOptions g.options newOptions)) st

/-- `cleanup`: clear the inline styles of every tracked element, detach
the stylesheet, and empty the set. -/
def cleanup (g : Group) (st : EnderState) : EnderState :=
  let st1 := st.els.foldl removeInlineStyleFromEl st
  let st2 := styleManagerRemove g.sheetId st1
  { st2 with els := [] }

/-- The body of `createEnderView` after the closure constants exist:
install the initial CSS for the merged options, then register the
resolved target elements. -/
def createEnderView (g : Group) (resolved : List Nat) (st : EnderState) : EnderState :=
  addElements g resolved (updateCss g (getOptions g.options) st)

/-- The public operations of an `EnderView` handle, for reasoning about
arbitrary call sequences. -/
inductive Op where
  | addElement (el : Nat) : Op
  | removeElement (el : Nat) : Op
  | addElements (resolved : List Nat) : Op
  | removeElements (resolved : List Nat) : Op
  | updateOptions (newOptions : Options) : Op
  | cleanup : Op

/-- Apply one handle operation. -/
def applyOp (g : Group) (st : EnderState) : Op → EnderState
  | Op.addElement el => addElement g el st
  | Op.removeElement el => removeElement g el st
  | Op.addElements resolved => addElements g resolved st
  | Op.removeElements resolved => removeElements g resolved st
  | Op.updateOptions newOptions => updateOptions g newOptions st
  | Op.cleanup => cleanup g st

/-- Run a sequence of handle operations. -/
def run (g : Group) (st : EnderState) (ops : List Op) : EnderState :=
  ops.foldl (applyOp g) st

/-- Resolution state of a JS promise. -/
inductive PromiseState where
  | pending : PromiseState
  | resolved : PromiseState
deriving DecidableEq

/-- The shape of a `ViewTransition` result over a DOM state type `σ`:
the type-tag set, the `skipTransition` method (as its action on the
DOM state), and the three completion promises. -/
structure ViewTransitionResult (σ : Type) where
  types : List String
  skipTransition : σ → σ
  finished : PromiseState
  ready : PromiseState
  updateCallbackDone : PromiseState

/-- The argument of `animate`: a zero-argument callback or an object
with an `update` method, each acting on the DOM state. -/
inductive DomUpdateFn (σ : Type) where
  | callback (f : σ → σ) : DomUpdateFn σ
  | updater (update : σ → σ) : DomUpdateFn σ

/-- Invoke the callback, or the object's `update` method. -/
def runDomUpdateFn {σ : Type} : DomUpdateFn σ → σ → σ
  | DomUpdateFn.callback f, s => f s
  | DomUpdateFn.updater f, s => f s

/-- The mock `ViewTransition` returned in unsupported environments:
empty type set, no-op `skipTransition`, three resolved promises. -/
def mockViewTransition (σ : Type) : ViewTransitionResult σ where
  types := []
  skipTransition := fun s => s
  finished := PromiseState.resolved
  ready := PromiseState.resolved
  updateCallbackDone := PromiseState.resolved

/-- `isViewTransitionSupported`: a document global exists and it has a
`startViewTransition` entry point. -/
def isViewTransitionSupported (documentDefined startViewTransitionDefined : Bool) : Bool :=
  documentDefined && startViewTransitionDefined

/-- `animate`: delegate to the platform's `startViewTransition` when
supported; otherwise run the DOM update synchronously and return the
mock result.  The platform call is modelled as a function from the
update argument and current DOM state to the platform's live result
and the resulting DOM state. -/
def animate {σ : Type} (documentDefined startViewTransitionDefined : Bool)
    (startViewTransition : DomUpdateFn σ → σ → ViewTransitionResult σ × σ)
    (domUpdateFn : DomUpdateFn σ) (dom : σ) : ViewTransitionResult σ × σ :=
  if isViewTransitionSupported documentDefined startViewTransitionDefined then
    startViewTransition domUpdateFn dom
  else
    (mockViewTransition σ, runDomUpdateFn domUpdateFn dom)

/-- The empty partial options record (no field supplied). -/
def emptyOptions : Options := {}

/-- The world before any group exists: no tracked elements, all inline
styles empty, no adopted stylesheet, empty sheet content. -/
def initialState : EnderState where
  els := []
  styles := fun _ => ⟨"", ""⟩
  adopted := []
  sheetCss := ""

/-- A sample group: the first generated identifier, sheet id 0, no
caller options. -/
def sampleGroup : Group where
  viewTransitionId := createUniqueViewTrasitionId 0
  sheetId := 0
  options := emptyOptions

/-- A sample platform `startViewTransition`: returns a live result with
a pending lifecycle and applies the DOM update. -/
def samplePlatform : DomUpdateFn Nat → Nat → ViewTransitionResult Nat × Nat :=
  fun f dom =>
    (⟨["sample"], fun s => s, PromiseState.pending, PromiseState.pending,
       PromiseState.pending⟩,
     runDomUpdateFn f dom)

/-- Sample options supplying a literal enter CSS fragment together with
an explicit caller-chosen enter animation name. -/
def namedEnterOptions : Options :=
  { emptyOptions with
      enterCss := some "opacity: 0"
      enterProps := some ⟨"linear", 0, 0, some "my-anim"⟩ }

/-- The inline style a member of group `g` is tagged with by
`addInlineStyleToEl`. -/
def taggedStyle (g : Group) : ElStyle :=
  ⟨((getOptions g.options).viewTransitionName).getD "match-element", g.viewTransitionId⟩

/-- Every element of the group set carries the group tag style. -/
def memberTagged (g : Group) (st : EnderState) : Prop :=
  ∀ el ∈ st.els, st.styles el = taggedStyle g

end EnderView

namespace EnderView

/-! Helper lemmas shared by several results. -/

theorem length_append_ne_empty (a b : String) (h : 0 < a.length) : a ++ b ≠ "" := by
  intro hc
  have h2 := congrArg String.length hc
  rw [String.length_append] at h2
  have h0 : ("" : String).length = 0 := rfl
  omega

theorem createTransitionCss_ne_empty (id : String) (o : Options) :
    createTransitionCss id o ≠ "" := by
  intro hc
  have h2 := congrArg String.length hc
  simp only [createTransitionCss, String.length_append] at h2
  have h3 : ("\n  " : String).length = 3 := rfl
  have h0 : ("" : String).length = 0 := rfl
  omega

theorem foldl_removeInlineStyle_adopted (l : List Nat) (st : EnderState) :
    (l.foldl removeInlineStyleFromEl st).adopted = st.adopted := by
  induction l generalizing st with
  | nil => rfl
  | cons a t ih => simp [List.foldl, ih, removeInlineStyleFromEl, applyViewTransitionStyles]

theorem foldl_removeInlineStyle_els (l : List Nat) (st : EnderState) :
    (l.foldl removeInlineStyleFromEl st).els = st.els := by
  induction l generalizing st with
  | nil => rfl
  | cons a t ih => simp [List.foldl, ih, removeInlineStyleFromEl, applyViewTransitionStyles]

theorem foldl_clear_styles_not_mem (l : List Nat) (st : EnderState) (el : Nat)
    (h : el ∉ l) :
    (l.foldl removeInlineStyleFromEl st).styles el = st.styles el := by
  induction l generalizing st with
  | nil => rfl
  | cons a t ih =>
      have ha : el ≠ a := fun hc => h (by simp [hc])
      have ht : el ∉ t := fun hc => h (by simp [hc])
      simp only [List.foldl]
      rw [ih _ ht]
      simp [removeInlineStyleFromEl, applyViewTransitionStyles, setStyle, ha]

theorem foldl_clear_styles_mem (l : List Nat) (st : EnderState) (el : Nat)
    (h : el ∈ l) :
    (l.foldl removeInlineStyleFromEl st).styles el = ⟨"", ""⟩ := by
  induction l generalizing st with
  | nil => exact absurd h (List.not_mem_nil el)
  | cons a t ih =>
      by_cases ht : el ∈ t
      · simpa [List.foldl] using ih (removeInlineStyleFromEl st a) ht
      · have ha : el = a := by
          rcases List.mem_cons.mp h with h1 | h1
          · exact h1
          · exact absurd h1 ht
        simp only [List.foldl]
        rw [foldl_clear_styles_not_mem _ _ _ ht, ha]
        simp [removeInlineStyleFromEl, applyViewTransitionStyles, setStyle]

theorem addElements_adopted (g : Group) (resolved : List Nat) (st : EnderState) :
    (addElements g resolved st).adopted = st.adopted := by
  induction resolved generalizing st with
  | nil => rfl
  | cons a t ih =>
      simp [addElements, List.foldl] at ih ⊢
      rw [ih]
      simp [addElement, addInlineStyleToEl, applyViewTransitionStyles]

/-- C4: after `updateOptions p1` then `updateOptions p2`, the installed
CSS is generated from `p2` merged over the original caller options plus
defaults — independent of `p1`, and identical to calling only
`updateOptions p2`. -/
theorem updateOptions_latest_over_base (g : Group) (p1 p2 : Options) (st : EnderState) :
    (updateOptions g p2 (updateOptions g p1 st)).sheetCss
      = createTransitionCss g.viewTransitionId (getOptions (mergeOptions g.options p2))
    ∧ (updateOptions g p2 (updateOptions g p1 st)).sheetCss
      = (updateOptions g p2 st).sheetCss := by
  constructor <;>
    simp [updateOptions, updateCss, styleManagerAdd, createTransitionCss_ne_empty]

/-- C5: when the view-transition capability is absent, `animate` runs
the DOM update synchronously and returns the mock result — empty type
set, identity `skipTransition`, three resolved promises; when the
capability is present, it returns the platform result unmodified. -/
theorem animate_capability (σ : Type) (documentDefined startViewTransitionDefined : Bool)
    (startViewTransition : DomUpdateFn σ → σ → ViewTransitionResult σ × σ)
    (domUpdateFn : DomUpdateFn σ) (dom : σ) :
    (isViewTransitionSupported documentDefined startViewTransitionDefined = false →
      animate documentDefined startViewTransitionDefined startViewTransition domUpdateFn dom
        = (mockViewTransition σ, runDomUpdateFn domUpdateFn dom)
      ∧ (mockViewTransition σ).types = []
      ∧ (mockViewTransition σ).skipTransition = (fun s => s)
      ∧ (mockViewTransition σ).finished = PromiseState.resolved
      ∧ (mockViewTransition σ).ready = PromiseState.resolved
      ∧ (mockViewTransition σ).updateCallbackDone = PromiseState.resolved)
    ∧ (isViewTransitionSupported documentDefined startViewTransitionDefined = true →
      animate documentDefined startViewTransitionDefined startViewTransition domUpdateFn dom
        = startViewTransition domUpdateFn dom) := by
  constructor <;> intro h <;> simp [animate, h, mockViewTransition]

theorem animate_capability_witness :
    (animate false false samplePlatform (DomUpdateFn.callback (fun n => n + 1)) (0 : Nat)
        = (mockViewTransition Nat,
           runDomUpdateFn (DomUpdateFn.callback (fun n : Nat => n + 1)) 0))
    ∧ animate true true samplePlatform (DomUpdateFn.callback (fun n => n + 1)) (0 : Nat)
        = samplePlatform (DomUpdateFn.callback (fun n => n + 1)) 0 :=
  ⟨((animate_capability Nat false false samplePlatform
      (DomUpdateFn.callback (fun n => n + 1)) 0).1 rfl).1,
   (animate_capability Nat true true samplePlatform
      (DomUpdateFn.callback (fun n => n + 1)) 0).2 rfl⟩

/-- C6: for every partial options record, the generated CSS has exactly
one group-level block, and that block carries all three of
animation-delay, animation-duration and animation-timing-function
populated from the merged values with defaults 0, 200 and
ease-in-out. -/
theorem groupRule_unique_and_merged (id : String) (p : Options) :
    ((cssBlocks id (getOptions p)).filter
        (fun b => b.1 = CssBlockKind.group)).map Prod.snd
      = ["::view-transition-group(." ++ id ++ ") \x7b\n    animation-delay: "
          ++ toString (p.delay.getD 0) ++ "ms;\n    animation-duration: "
          ++ toString (p.duration.getD 200) ++ "ms;\n    animation-timing-function: "
          ++ p.easing.getD "ease-in-out" ++ ";\n  \x7d"]
    ∧ createTransitionCss id (getOptions p)
      = "\n  " ++ newChildRule id (getOptions p)
        ++ "\n\n  " ++ oldChildRule id (getOptions p)
        ++ "\n\n  " ++ groupRule id (getOptions p)
        ++ "\n\n  " ++ enterKeyframes id (getOptions p)
        ++ "\n\n  " ++ leaveKeyframes id (getOptions p) ++ "\n" := by
  refine ⟨?_, rfl⟩
  simp [cssBlocks, List.filter, groupRule, getOptions, renderNum, renderStr]

/-- C8: `addElement` immediately followed by `removeElement` on the
same element leaves both managed style declarations empty and the
element out of the set. -/
theorem addElement_removeElement_roundtrip (g : Group) (el : Nat) (st : EnderState) :
    (removeElement g el (addElement g el st)).styles el = ⟨"", ""⟩
    ∧ el ∉ (removeElement g el (addElement g el st)).els := by
  constructor
  · simp [removeElement, addElement, removeInlineStyleFromEl, addInlineStyleToEl,
      applyViewTransitionStyles, setStyle]
  · simp [removeElement, addElement, removeInlineStyleFromEl, addInlineStyleToEl,
      applyViewTransitionStyles, List.mem_filter]

/-- C9: after `cleanup` the membership set is empty and no instance of
the group sheet remains in the adopted-stylesheet list. -/
theorem cleanup_empties_and_detaches (g : Group) (st : EnderState) :
    (cleanup g st).els = [] ∧ g.sheetId ∉ (cleanup g st).adopted := by
  refine ⟨rfl, ?_⟩
  simp [cleanup, styleManagerRemove, List.mem_filter]

/-- C10: `removeElement` on an untracked element still clears both
managed style declarations while the set is unchanged. -/
theorem removeElement_untracked (g : Group) (el : Nat) (st : EnderState)
    (h : el ∉ st.els) :
    (removeElement g el st).styles el = ⟨"", ""⟩
    ∧ (removeElement g el st).els = st.els := by
  constructor
  · simp [removeElement, removeInlineStyleFromEl, applyViewTransitionStyles, setStyle]
  · simp only [removeElement, removeInlineStyleFromEl, applyViewTransitionStyles]
    exact List.filter_eq_self.mpr fun a ha => by
      simp only [ne_eq, decide_eq_true_eq]
      exact fun hc => h (hc ▸ ha)

theorem removeElement_untracked_witness :
    (removeElement sampleGroup 5 initialState).styles 5 = ⟨"", ""⟩
    ∧ (removeElement sampleGroup 5 initialState).els = initialState.els :=
  removeElement_untracked sampleGroup 5 initialState (List.not_mem_nil 5)

/-- C2 as stated is false: constructing a group and then calling
`updateOptions` once leaves two instances of the same sheet object in
the adopted-stylesheet list. -/
theorem adopted_duplicates_counterexample :
    ¬((updateOptions sampleGroup emptyOptions
          (createEnderView sampleGroup [] initialState)).adopted.count
        sampleGroup.sheetId ≤ 1) := by decide

/-- C2 amended: construction and each `updateOptions` call append
exactly one more instance of the group single sheet object to the
adopted list (duplicates accumulate, no distinct second sheet is ever
created), element operations leave the list unchanged, and `cleanup`
removes every instance. -/
theorem stylesheet_instance_accounting (g : Group) (p : Options) (resolved : List Nat)
    (el : Nat) (st : EnderState) :
    (updateOptions g p st).adopted = st.adopted ++ [g.sheetId]
    ∧ (createEnderView g resolved st).adopted = st.adopted ++ [g.sheetId]
    ∧ (addElement g el st).adopted = st.adopted
    ∧ (removeElement g el st).adopted = st.adopted
    ∧ (cleanup g st).adopted = st.adopted.filter (fun s => s ≠ g.sheetId)
    ∧ g.sheetId ∉ (cleanup g st).adopted := by
  refine ⟨rfl, ?_, rfl, rfl, ?_, ?_⟩
  · rw [createEnderView, addElements_adopted]
    rfl
  · simp [cleanup, styleManagerRemove, foldl_removeInlineStyle_adopted]
  · simp [cleanup, styleManagerRemove, List.mem_filter]

end EnderView

namespace EnderView

/-! Preservation of the member-tag invariant by every handle
operation. -/

theorem memberTagged_addElement (g : Group) (el : Nat) (st : EnderState)
    (h : memberTagged g st) : memberTagged g (addElement g el st) := by
  intro e he
  have he2 : e ∈ (if el ∈ st.els then st.els else st.els ++ [el]) := he
  have hstyles : (addElement g el st).styles e
      = setStyle st.styles el (taggedStyle g) e := rfl
  by_cases hcase : e = el
  · subst hcase
    rw [hstyles]
    simp [setStyle]
  · have he' : e ∈ st.els := by
      by_cases hm : el ∈ st.els
      · rwa [if_pos hm] at he2
      · rw [if_neg hm] at he2
        rcases List.mem_append.mp he2 with h1 | h1
        · exact h1
        · exact absurd (List.mem_singleton.mp h1) hcase
    rw [hstyles]
    simp only [setStyle, if_neg hcase]
    exact h e he'

theorem memberTagged_removeElement (g : Group) (el : Nat) (st : EnderState)
    (h : memberTagged g st) : memberTagged g (removeElement g el st) := by
  intro e he
  simp only [removeElement, removeInlineStyleFromEl, applyViewTransitionStyles,
    List.mem_filter, ne_eq, decide_eq_true_eq] at he
  have hs : (removeElement g el st).styles e = st.styles e := by
    simp [removeElement, removeInlineStyleFromEl, applyViewTransitionStyles, setStyle,
      he.2]
  rw [hs]
  exact h e he.1

theorem memberTagged_addElements (g : Group) (resolved : List Nat) (st : EnderState)
    (h : memberTagged g st) : memberTagged g (addElements g resolved st) := by
  induction resolved generalizing st with
  | nil => exact h
  | cons a t ih => exact ih (addElement g a st) (memberTagged_addElement g a st h)

theorem memberTagged_removeElements (g : Group) (resolved : List Nat) (st : EnderState)
    (h : memberTagged g st) : memberTagged g (removeElements g resolved st) := by
  induction resolved generalizing st with
  | nil => exact h
  | cons a t ih => exact ih (removeElement g a st) (memberTagged_removeElement g a st h)

theorem memberTagged_updateOptions (g : Group) (p : Options) (st : EnderState)
    (h : memberTagged g st) : memberTagged g (updateOptions g p st) := h

theorem memberTagged_cleanup (g : Group) (st : EnderState) :
    memberTagged g (cleanup g st) := by
  intro e he
  exact absurd he (List.not_mem_nil e)

theorem memberTagged_applyOp (g : Group) (st : EnderState) (op : Op)
    (h : memberTagged g st) : memberTagged g (applyOp g st op) := by
  cases op with
  | addElement el => exact memberTagged_addElement g el st h
  | removeElement el => exact memberTagged_removeElement g el st h
  | addElements resolved => exact memberTagged_addElements g resolved st h
  | removeElements resolved => exact memberTagged_removeElements g resolved st h
  | updateOptions p => exact memberTagged_updateOptions g p st h
  | cleanup => exact memberTagged_cleanup g st

theorem memberTagged_run (g : Group) (st : EnderState) (ops : List Op)
    (h : memberTagged g st) : memberTagged g (run g st ops) := by
  induction ops generalizing st with
  | nil => exact h
  | cons op t ih => exact ih (applyOp g st op) (memberTagged_applyOp g st op h)

/-- C1 as stated is false: an element added to a fresh group with no
caller options is a member whose `viewTransitionClass` is the generated
identifier, but whose `viewTransitionName` is `"match-element"`, not
the identifier. -/
theorem member_style_name_counterexample :
    7 ∈ (addElement sampleGroup 7 initialState).els
    ∧ ((addElement sampleGroup 7 initialState).styles 7).viewTransitionClass
        = sampleGroup.viewTransitionId
    ∧ ((addElement sampleGroup 7 initialState).styles 7).viewTransitionName
        ≠ sampleGroup.viewTransitionId
    ∧ ((addElement sampleGroup 7 initialState).styles 7).viewTransitionName
        = "match-element" := by
  refine ⟨?_, ?_, ?_, ?_⟩ <;> decide

/-- C1 amended: while an element is a member its `viewTransitionClass`
equals the group generated identifier and its `viewTransitionName`
equals the caller-supplied transition name (or `"match-element"` when
none was supplied) — an invariant preserved by every sequence of handle
operations — and `removeElement` and `cleanup` reset both managed
declarations to the empty string. -/
theorem member_styles_invariant (g : Group) (st : EnderState) (ops : List Op)
    (h : memberTagged g st) :
    memberTagged g (run g st ops)
    ∧ (∀ el, (removeElement g el st).styles el = ⟨"", ""⟩)
    ∧ (∀ el ∈ st.els, (cleanup g st).styles el = ⟨"", ""⟩) := by
  refine ⟨memberTagged_run g st ops h, ?_, ?_⟩
  · intro el
    simp [removeElement, removeInlineStyleFromEl, applyViewTransitionStyles, setStyle]
  · intro el hel
    have hs : (cleanup g st).styles el
        = (st.els.foldl removeInlineStyleFromEl st).styles el := rfl
    rw [hs]
    exact foldl_clear_styles_mem st.els st el hel

theorem member_styles_invariant_witness :
    (removeElement sampleGroup 3 initialState).styles 3 = ⟨"", ""⟩ :=
  (member_styles_invariant sampleGroup initialState [Op.addElement 3, Op.cleanup]
      (fun el hel => absurd hel (List.not_mem_nil el))).2.1 3

set_option maxRecDepth 20000 in
/-- C3 as stated is false: with a literal enter fragment and an explicit
caller-chosen enter animation name, the emitted keyframe block is still
named after the group identifier with the `-enter` suffix; the name
`my-anim` never opens a keyframe block in the generated CSS. -/
theorem keyframes_name_counterexample :
    enterKeyframes "ender-view-transition-id-1" (getOptions namedEnterOptions)
      = "\n  @keyframes ender-view-transition-id-1-enter \x7b\n    from \x7b opacity: 0 \x7d\n  \x7d"
    ∧ enterKeyframes "ender-view-transition-id-1" (getOptions namedEnterOptions)
      ≠ "\n  @keyframes my-anim \x7b\n    from \x7b opacity: 0 \x7d\n  \x7d"
    ∧ ¬(("@keyframes my-anim").data <:+:
        (createTransitionCss "ender-view-transition-id-1"
          (getOptions namedEnterOptions)).data) := by
  refine ⟨rfl, ?_, ?_⟩ <;> decide

/-- C3 amended: a keyframe block is emitted iff the corresponding
literal CSS fragment is supplied and non-empty, and every emitted block
is named after the group identifier with the `-enter`/`-leave` suffix;
a caller-chosen animation name never renames the keyframe block. -/
theorem keyframes_emission (id : String) (o : Options) :
    (enterKeyframes id o ≠ "" ↔ ∃ css, o.enterCss = some css ∧ css ≠ "")
    ∧ (∀ css, o.enterCss = some css → css ≠ "" →
        enterKeyframes id o
          = "\n  @keyframes " ++ id ++ "-enter \x7b\n    from \x7b " ++ css ++ " \x7d\n  \x7d")
    ∧ (leaveKeyframes id o ≠ "" ↔ ∃ css, o.leaveCss = some css ∧ css ≠ "")
    ∧ (∀ css, o.leaveCss = some css → css ≠ "" →
        leaveKeyframes id o
          = "\n  @keyframes " ++ id ++ "-leave \x7b\n    to \x7b " ++ css ++ " \x7d\n  \x7d") := by
  refine ⟨?_, ?_, ?_, ?_⟩
  · constructor
    · intro h
      cases hc : o.enterCss with
      | none => exact absurd (by simp [enterKeyframes, hc]) h
      | some css =>
          by_cases hcss : css = ""
          · exact absurd (by simp [enterKeyframes, hc, hcss]) h
          · exact ⟨css, rfl, hcss⟩
    · rintro ⟨css, hc, hcss⟩
      simp only [enterKeyframes, hc]
      rw [if_neg hcss]
      intro h2
      have h3 := congrArg String.length h2
      simp only [String.length_append] at h3
      have h4 : ("\n  @keyframes " : String).length = 14 := rfl
      have h0 : ("" : String).length = 0 := rfl
      omega
  · intro css hc hcss
    simp [enterKeyframes, hc, hcss]
  · constructor
    · intro h
      cases hc : o.leaveCss with
      | none => exact absurd (by simp [leaveKeyframes, hc]) h
      | some css =>
          by_cases hcss : css = ""
          · exact absurd (by simp [leaveKeyframes, hc, hcss]) h
          · exact ⟨css, rfl, hcss⟩
    · rintro ⟨css, hc, hcss⟩
      simp only [leaveKeyframes, hc]
      rw [if_neg hcss]
      intro h2
      have h3 := congrArg String.length h2
      simp only [String.length_append] at h3
      have h4 : ("\n  @keyframes " : String).length = 14 := rfl
      have h0 : ("" : String).length = 0 := rfl
      omega
  · intro css hc hcss
    simp [leaveKeyframes, hc, hcss]

theorem keyframes_emission_witness :
    enterKeyframes "ender-view-transition-id-1" namedEnterOptions
      = "\n  @keyframes ender-view-transition-id-1-enter \x7b\n    from \x7b opacity: 0 \x7d\n  \x7d" :=
  (keyframes_emission "ender-view-transition-id-1" namedEnterOptions).2.1
    "opacity: 0" rfl (by decide)

end EnderView

namespace EnderView

theorem decl_ne_empty (a b c : String) (h : 0 < a.length) : a ++ b ++ c ≠ "" := by
  apply length_append_ne_empty
  rw [String.length_append]
  omega

/-- C7: an enter/leave per-property declaration (animation-delay,
animation-duration, animation-timing-function) is emitted in the
corresponding rule iff the sub-property is present in
enterProps/leaveProps and truthy (a 0 delay/duration and an empty
easing are omitted), and the emitted declaration carries the
sub-property value; the new/old rules embed exactly these conditional
declarations. -/
theorem per_property_declarations (id : String) (o : Options) :
    newChildRule id o
      = "::view-transition-new(." ++ id ++ "):only-child \x7b \n    animation-name: "
        ++ animNameFor o.enterProps (id ++ "-enter") ++ ";\n    "
        ++ animDelayDecl o.enterProps ++ "\n    "
        ++ animDurationDecl o.enterProps ++ "\n    "
        ++ animEasingDecl o.enterProps ++ "\n  \x7d"
    ∧ oldChildRule id o
      = "::view-transition-old(." ++ id ++ "):only-child \x7b \n    animation-name: "
        ++ animNameFor o.leaveProps (id ++ "-leave") ++ ";\n    "
        ++ animDelayDecl o.leaveProps ++ "\n    "
        ++ animDurationDecl o.leaveProps ++ "\n    "
        ++ animEasingDecl o.leaveProps ++ "\n  \x7d"
    ∧ (∀ props : Option AnimProps,
        (animDelayDecl props ≠ "" ↔ ∃ p, props = some p ∧ p.delay ≠ 0)
        ∧ (animDurationDecl props ≠ "" ↔ ∃ p, props = some p ∧ p.duration ≠ 0)
        ∧ (animEasingDecl props ≠ "" ↔ ∃ p, props = some p ∧ p.easing ≠ "")
        ∧ (∀ p, props = some p → p.delay ≠ 0 →
            animDelayDecl props = "animation-delay: " ++ toString p.delay ++ "ms;")
        ∧ (∀ p, props = some p → p.duration ≠ 0 →
            animDurationDecl props = "animation-duration: " ++ toString p.duration ++ "ms;")
        ∧ (∀ p, props = some p → p.easing ≠ "" →
            animEasingDecl props = "animation-timing-function: " ++ p.easing ++ ";")) := by
  refine ⟨rfl, rfl, ?_⟩
  intro props
  refine ⟨⟨?_, ?_⟩, ⟨?_, ?_⟩, ⟨?_, ?_⟩, ?_, ?_, ?_⟩
  · intro h
    cases props with
    | none => exact absurd rfl h
    | some p =>
        by_cases hd : p.delay = 0
        · exact absurd (by simp [animDelayDecl, hd]) h
        · exact ⟨p, rfl, hd⟩
  · rintro ⟨p, hp, hd⟩
    subst hp
    simp only [animDelayDecl, if_neg hd]
    exact decl_ne_empty _ _ _ (by decide)
  · intro h
    cases props with
    | none => exact absurd rfl h
    | some p =>
        by_cases hd : p.duration = 0
        · exact absurd (by simp [animDurationDecl, hd]) h
        · exact ⟨p, rfl, hd⟩
  · rintro ⟨p, hp, hd⟩
    subst hp
    simp only [animDurationDecl, if_neg hd]
    exact decl_ne_empty _ _ _ (by decide)
  · intro h
    cases props with
    | none => exact absurd rfl h
    | some p =>
        by_cases hd : p.easing = ""
        · exact absurd (by simp [animEasingDecl, hd]) h
        · exact ⟨p, rfl, hd⟩
  · rintro ⟨p, hp, hd⟩
    subst hp
    simp only [animEasingDecl, if_neg hd]
    intro h2
    have h3 := congrArg String.length h2
    simp only [String.length_append] at h3
    have h4 : ("animation-timing-function: " : String).length = 27 := rfl
    have h0 : ("" : String).length = 0 := rfl
    omega
  · intro p hp hd
    subst hp
    simp [animDelayDecl, hd]
  · intro p hp hd
    subst hp
    simp [animDurationDecl, hd]
  · intro p hp hd
    subst hp
    simp [animEasingDecl, hd]

theorem per_property_declarations_witness :
    animDelayDecl (some ⟨"linear", 100, 5, none⟩) = "animation-delay: 5ms;"
    ∧ animDelayDecl (some ⟨"linear", 100, 0, none⟩) = "" :=
  ⟨((per_property_declarations "ender-view-transition-id-1" emptyOptions).2.2
      (some ⟨"linear", 100, 5, none⟩)).2.2.2.1 ⟨"linear", 100, 5, none⟩ rfl (by decide),
   by decide⟩

end EnderView
